import Mathlib

/-!
Shallow embedding of `unftp-sbe-fatfs` (`src/lib.rs`): a read-only libunftp
storage backend over a FAT filesystem image.  Pure data is modelled directly;
the FAT volume (an external capability provided by the `fatfs` crate) is
modelled as a finite tree of named entries, enumerated in volume order.
Timestamps are modelled as whole seconds since the Unix epoch (`Nat`).
-/

set_option autoImplicit false

namespace FatVfs

/-- The `libunftp` error kinds that `lib.rs` actually produces. -/
inductive ErrorKind where
  | PermanentFileNotAvailable
  | FileNameNotAllowedError
  | PermissionDenied
  deriving DecidableEq

/-- `fatfs::Date`: year (absolute), month 1-12, day 1-31; all `u16` in Rust. -/
structure Date where
  year : Nat
  month : Nat
  day : Nat
  deriving DecidableEq

/-- `fatfs::Time`: hour, min, sec (`u16` in Rust; millis are unused by `lib.rs`). -/
structure Time where
  hour : Nat
  min : Nat
  sec : Nat
  deriving DecidableEq

/-- `fatfs::DateTime`. -/
structure DateTime where
  date : Date
  time : Time
  deriving DecidableEq

/-- A node of the FAT volume: a file with its content bytes, or a directory
with its child entries in volume enumeration order.  Each node carries the
modification `DateTime` stored in its directory entry. -/
inductive FsNode where
  | file (content : List Nat) (modified : DateTime)
  | dir (entries : List (String × FsNode)) (modified : DateTime)

/-- A directory entry as exposed by the volume: name plus node. -/
abbrev Entry := String × FsNode

/-- A `std::path::Component` (Unix): root `/`, `.`, `..`, or a normal name. -/
inductive PathComponent where
  | rootDir
  | curDir
  | parentDir
  | normal (name : String)
  deriving DecidableEq

/-- Splits a character list at `/`, keeping empty pieces (model of
`str::split('/')`).  Auxiliary accumulator holds the current piece reversed. -/
def splitSlashAux : List Char → List Char → List String
  | [], acc => [String.mk acc.reverse]
  | c :: rest, acc =>
      if c = '/' then String.mk acc.reverse :: splitSlashAux rest []
      else splitSlashAux rest (c :: acc)

def splitSlash (s : String) : List String :=
  splitSlashAux s.data []

/-- Model of `std::path::Path::components` on Unix for the paths `lib.rs`
manipulates: a leading `/` yields `RootDir`; the pieces between slashes yield
`CurDir` for `.`, `ParentDir` for `..`, `Normal` otherwise; empty pieces are
skipped.  (std also drops interior `CurDir`s itself; `normalize_path` discards
them anyway, so retaining them is extensionally identical downstream.) -/
def startsWithSlash (s : String) : Bool :=
  match s.data with
  | c :: _ => c = '/'
  | [] => false

def strComponents (s : String) : List PathComponent :=
  (if startsWithSlash s then [PathComponent.rootDir] else []) ++
    (splitSlash s).filterMap (fun part =>
      if part = "" then none
      else if part = "." then some PathComponent.curDir
      else if part = ".." then some PathComponent.parentDir
      else some (PathComponent.normal part))

/-- One step of `Vfs::normalize_path`'s loop body: `ParentDir` pops the
accumulated `PathBuf` when non-empty, `Normal` pushes, everything else
(`CurDir`, `RootDir`, prefixes) is skipped. -/
def normStep (acc : List String) : PathComponent → List String
  | PathComponent.parentDir => if acc = [] then acc else acc.dropLast
  | PathComponent.normal n => acc ++ [n]
  | PathComponent.curDir => acc
  | PathComponent.rootDir => acc

/-- `Vfs::normalize_path` (lib.rs lines 207-227), on the component sequence:
fold `normStep` from the empty `PathBuf`. -/
def normalize (cs : List PathComponent) : List String :=
  cs.foldl normStep []

/-- `normalize_path` applied to a path string. -/
def normalizeStr (s : String) : List String :=
  normalize (strComponents s)

/-- `str::eq_ignore_ascii_case`: ASCII-lowercase both sides, compare bytes.
Modelled on the character sequence. -/
def asciiLower (c : Char) : Char :=
  if 'A' ≤ c ∧ c ≤ 'Z' then Char.ofNat (c.toNat + 32) else c

def eqIgnoreAsciiCase (a b : String) : Bool :=
  a.data.map asciiLower = b.data.map asciiLower

/-- The linear directory scan inside `Vfs::find`'s component loop: the first
entry whose name matches the component case-insensitively. -/
def lookupCI (dir : List Entry) (c : String) : Option Entry :=
  dir.find? (fun e => eqIgnoreAsciiCase e.1 c)

/-- The component walk of `Vfs::find` (lib.rs lines 156-200), after
normalization and the root check.  For a non-final component the first
case-insensitive match must be a directory (descend) — a file fails
`FileNameNotAllowedError` — and no match fails `PermanentFileNotAvailable`.
The final component returns the first match, file or directory.  An empty
component list leaves `current_entry` as `None`, hence
`PermanentFileNotAvailable` from the trailing `ok_or`. -/
def findComponents : List Entry → List String → Except ErrorKind Entry
  | _, [] => Except.error ErrorKind.PermanentFileNotAvailable
  | dir, [c] =>
      match lookupCI dir c with
      | some e => Except.ok e
      | none => Except.error ErrorKind.PermanentFileNotAvailable
  | dir, c :: rest =>
      match lookupCI dir c with
      | some (_, FsNode.dir entries _) => findComponents entries rest
      | some (_, FsNode.file _ _) => Except.error ErrorKind.FileNameNotAllowedError
      | none => Except.error ErrorKind.PermanentFileNotAvailable

/-- `Vfs::find` (lib.rs lines 132-201): normalize the path; if the normalized
path is root (empty), fail `FileNameNotAllowedError`; otherwise walk the
components from the volume root.  The volume is given as its root directory's
entry list. -/
def find (root : List Entry) (ftp_path : String) : Except ErrorKind Entry :=
  let comps := normalizeStr ftp_path
  if comps = [] then Except.error ErrorKind.FileNameNotAllowedError
  else findComponents root comps

/-- The `Meta` struct of `lib.rs`: directory flag, byte length, and the raw
FAT `DateTime` captured from the directory entry. -/
structure Meta where
  is_dir : Bool
  len : Nat
  modified : DateTime
  deriving DecidableEq

/-- `DirEntry::len` is the file size in bytes (0 for directories) and
`DirEntry::is_dir`/`modified` read the entry's attributes; this is the
`Meta { is_dir, len, modified }` built in `metadata` and `list`. -/
def entryMeta : FsNode → Meta
  | FsNode.file content m => ⟨false, content.length, m⟩
  | FsNode.dir _ m => ⟨true, 0, m⟩

/-- `is_leap_year` (lib.rs lines 465-467). -/
def is_leap_year (year : Nat) : Bool :=
  (year % 4 == 0 && !(year % 100 == 0)) || year % 400 == 0

/-- The `DAYS_IN_MONTH` table of `days_since_1980` (non-leap February). -/
def DAYS_IN_MONTH : List Nat := [31, 28, 31, 30, 31, 30, 31, 31, 30, 31, 30, 31]

/-- `days_since_1980` (lib.rs lines 435-463): validate month/day, then add
365/366 per full year since 1980, the month table (plus one for February of a
leap year) for months before `month`, and `day - 1`.  Rust's `1980..year` is
empty when `year < 1980`, matching `Nat` truncated subtraction; `u32`
arithmetic cannot overflow for `u16` inputs, so `Nat` is exact. -/
def days_since_1980 (year month day : Nat) : Option Nat :=
  if ¬(1 ≤ month ∧ month ≤ 12) ∨ day < 1 then none
  else
    let yearDays := (List.range (year - 1980)).foldl
      (fun acc i => acc + if is_leap_year (1980 + i) then 366 else 365) 0
    let monthDays := (List.range (month - 1)).foldl
      (fun acc i =>
        acc + DAYS_IN_MONTH.getD i 0 +
          if i + 1 = 2 ∧ is_leap_year year = true then 1 else 0) 0
    some (yearDays + monthDays + (day - 1))

/-- `Meta::modified` (lib.rs lines 397-423), with `SystemTime` modelled as
whole seconds since the Unix epoch.  The sanity check rejects year < 1980,
month outside 1..=12 and day outside 1..=31 with
`PermanentFileNotAvailable`; otherwise the result is the FAT epoch
(315532800 s after Unix epoch) plus days*86400 + hour*3600 + min*60 + sec.
`u64` arithmetic cannot overflow for `u16` fields, so `Nat` is exact. -/
def Meta.modifiedResult (m : Meta) : Except ErrorKind Nat :=
  let dt := m.modified
  if dt.date.year < 1980 ∨ dt.date.month = 0 ∨ dt.date.month > 12 ∨
      dt.date.day = 0 ∨ dt.date.day > 31 then
    Except.error ErrorKind.PermanentFileNotAvailable
  else
    match days_since_1980 dt.date.year dt.date.month dt.date.day with
    | none => Except.error ErrorKind.PermanentFileNotAvailable
    | some days =>
        Except.ok (315532800 + (days * 86400 + dt.time.hour * 3600 +
          dt.time.min * 60 + dt.time.sec))

/-- `StorageBackend::metadata` (lib.rs lines 234-248): find the entry, then
build its `Meta`.  The volume is given as its root entry list (a successful
`open_fs` is assumed; its I/O failure modes are environment, not logic). -/
def metadata (root : List Entry) (path : String) : Except ErrorKind Meta :=
  match find root path with
  | Except.error e => Except.error e
  | Except.ok (_, node) => Except.ok (entryMeta node)

/-- The `for sub_result in dir.iter()` loop of `list`: one
`(file_name, Meta)` record per child, in volume enumeration order. -/
def listEntries (entries : List Entry) : List (String × Meta) :=
  entries.map (fun e => (e.1, entryMeta e.2))

/-- `StorageBackend::list` (lib.rs lines 250-286) for a UTF-8 path: if the
raw path string equals `"/"`, enumerate the volume root directly; otherwise
`find` the entry, fail `FileNameNotAllowedError` when it is a file, else
enumerate its children in order. -/
def list (root : List Entry) (path : String) : Except ErrorKind (List (String × Meta)) :=
  if path = "/" then Except.ok (listEntries root)
  else
    match find root path with
    | Except.error e => Except.error e
    | Except.ok (_, FsNode.file _ _) => Except.error ErrorKind.FileNameNotAllowedError
    | Except.ok (_, FsNode.dir entries _) => Except.ok (listEntries entries)

/-- Modelled from the spec: the seek capability of the external `fatfs` file
handle consumed by `get` (the `fatfs` crate is not part of this repository's
sources).  Per the spec, "seeks to `start_offset` (seeking past end-of-file is
itself an error, not silently clamped)": seeking to an offset not beyond the
file's length yields that position, anything larger fails. -/
def seekStart (content : List Nat) (start_pos : Nat) : Option Nat :=
  if start_pos ≤ content.length then some start_pos else none

/-- `StorageBackend::get` (lib.rs lines 288-319): find the entry, fail
`FileNameNotAllowedError` for a directory, seek to `start_pos` (a seek error
maps to `PermanentFileNotAvailable`), then `read_to_end`, i.e. the content
from that position to end-of-file. -/
def get (root : List Entry) (path : String) (start_pos : Nat) :
    Except ErrorKind (List Nat) :=
  match find root path with
  | Except.error e => Except.error e
  | Except.ok (_, FsNode.dir _ _) => Except.error ErrorKind.FileNameNotAllowedError
  | Except.ok (_, FsNode.file content _) =>
      match seekStart content start_pos with
      | none => Except.error ErrorKind.PermanentFileNotAvailable
      | some pos => Except.ok (content.drop pos)

/-- `StorageBackend::put` (lib.rs lines 321-332): unconditionally
`PermissionDenied`; the path (and the volume) are never touched. -/
def put (_path : String) (_start_pos : Nat) : Except ErrorKind Nat :=
  Except.error ErrorKind.PermissionDenied

/-- `StorageBackend::del` (lib.rs lines 334-336). -/
def del (_path : String) : Except ErrorKind Unit :=
  Except.error ErrorKind.PermissionDenied

/-- `StorageBackend::mkd` (lib.rs lines 338-340). -/
def mkd (_path : String) : Except ErrorKind Unit :=
  Except.error ErrorKind.PermissionDenied

/-- `StorageBackend::rename` (lib.rs lines 342-349). -/
def rename (_from _to : String) : Except ErrorKind Unit :=
  Except.error ErrorKind.PermissionDenied

/-- `StorageBackend::rmd` (lib.rs lines 351-353). -/
def rmd (_path : String) : Except ErrorKind Unit :=
  Except.error ErrorKind.PermissionDenied

/-- `StorageBackend::cwd` (lib.rs lines 355-366) for a UTF-8 path: raw `"/"`
succeeds immediately; otherwise find the entry and fail
`FileNameNotAllowedError` when it is a file. -/
def cwd (root : List Entry) (path : String) : Except ErrorKind Unit :=
  if path = "/" then Except.ok ()
  else
    match find root path with
    | Except.error e => Except.error e
    | Except.ok (_, FsNode.file _ _) => Except.error ErrorKind.FileNameNotAllowedError
    | Except.ok (_, FsNode.dir _ _) => Except.ok ()

/-- An OS string as received through `AsRef<Path>`: either valid UTF-8 or a
byte sequence that is not. -/
inductive OsStr where
  | utf8 (s : String)
  | nonUtf8 (bytes : List Nat)

/-- `OsStr::to_str`: `Some` exactly for valid UTF-8. -/
def OsStr.toStr : OsStr → Option String
  | OsStr.utf8 s => some s
  | OsStr.nonUtf8 _ => none

/-- Outcome of running a method that may panic. -/
inductive Outcome (α : Type) where
  | panicked
  | result (r : Except ErrorKind α)

/-- `StorageBackend::list` on a raw path: line 260 runs
`path.as_ref().to_str().unwrap()`, which panics on non-UTF-8. -/
def listOs (root : List Entry) (path : OsStr) : Outcome (List (String × Meta)) :=
  match path.toStr with
  | none => Outcome.panicked
  | some s => Outcome.result (list root s)

/-- `StorageBackend::cwd` on a raw path: line 357 runs
`path.as_ref().to_str().unwrap()`, which panics on non-UTF-8. -/
def cwdOs (root : List Entry) (path : OsStr) : Outcome Unit :=
  match path.toStr with
  | none => Outcome.panicked
  | some s => Outcome.result (cwd root s)

/-! ### Spec-side timestamp arithmetic (for the refinement claim C1) -/

/-- The Gregorian leap-year rule as the spec words it: divisible by 4 and not
by 100, unless divisible by 400. -/
def gregorianLeap (y : Nat) : Bool :=
  (y % 4 == 0 && !(y % 100 == 0)) || y % 400 == 0

/-- Days in each month per the spec's table, with February counted as 29 in a
leap year. -/
def specMonthDays (leap : Bool) : List Nat :=
  [31, if leap then 29 else 28, 31, 30, 31, 30, 31, 31, 30, 31, 30, 31]

/-- Days elapsed since 1980-01-01 as the spec words it: sum 365 (or 366 for
leap years) for every full year from 1980 up to but not including `year`, plus
the cumulative days-in-month before `month` (February as 29 when `year` is
leap), plus `day - 1`. -/
def specDays (year month day : Nat) : Nat :=
  ((List.range (year - 1980)).map
      (fun i => if gregorianLeap (1980 + i) then 366 else 365)).sum
  + ((specMonthDays (gregorianLeap year)).take (month - 1)).sum
  + (day - 1)

/-! ### Fixture volume for concrete witnesses -/

/-- 2021-03-15 10:30:00, the spec's end-to-end scenario date. -/
def sampleDT : DateTime := ⟨⟨2021, 3, 15⟩, ⟨10, 30, 0⟩⟩

/-- Children of `/a/B` in the fixture volume. -/
def bEntries : List Entry := [("c.txt", FsNode.file [104, 105] sampleDT)]

/-- Children of `/a` in the fixture volume. -/
def aEntries : List Entry := [("B", FsNode.dir bEntries sampleDT)]

/-- A small fixture volume: `/a/B/c.txt` (2 bytes) and `/file.txt` (3 bytes). -/
def fixtureVol : List Entry :=
  [("a", FsNode.dir aEntries sampleDT),
   ("file.txt", FsNode.file [1, 2, 3] sampleDT)]

/-! ### Helper lemmas -/

theorem normStep_parentDir (acc : List String) :
    normStep acc PathComponent.parentDir = acc.dropLast := by
  cases acc <;> simp [normStep]

theorem normalize_append_single (cs : List PathComponent) (c : PathComponent) :
    normalize (cs ++ [c]) = normStep (normalize cs) c := by
  simp [normalize, List.foldl_append]

/-! ### Claim theorems -/

/-- Claim C2: all five mutation operations (`put`, `del`, `mkd`, `rename`,
`rmd`) return `PermissionDenied` for every path argument — existing or not —
and never the not-found error `PermanentFileNotAvailable`; none of them takes
or opens the volume at all (their signatures have no volume parameter,
mirroring the source, which never calls `open_fs`). -/
theorem mutations_always_permission_denied (p q : String) (off : Nat) :
    put p off = Except.error ErrorKind.PermissionDenied
  ∧ del p = Except.error ErrorKind.PermissionDenied
  ∧ mkd p = Except.error ErrorKind.PermissionDenied
  ∧ rename p q = Except.error ErrorKind.PermissionDenied
  ∧ rmd p = Except.error ErrorKind.PermissionDenied
  ∧ put p off ≠ Except.error ErrorKind.PermanentFileNotAvailable
  ∧ del p ≠ Except.error ErrorKind.PermanentFileNotAvailable
  ∧ mkd p ≠ Except.error ErrorKind.PermanentFileNotAvailable
  ∧ rename p q ≠ Except.error ErrorKind.PermanentFileNotAvailable
  ∧ rmd p ≠ Except.error ErrorKind.PermanentFileNotAvailable := by
  refine ⟨rfl, rfl, rfl, rfl, rfl, ?_, ?_, ?_, ?_, ?_⟩ <;>
    simp [put, del, mkd, rename, rmd]

/-- Claim C3: a directory entry whose FAT date has year < 1980, month outside
[1,12] or day outside [1,31] makes `Meta::modified` fail with
`PermanentFileNotAvailable`; no timestamp is ever produced for such a date. -/
theorem modified_invalid_date_rejected (b : Bool) (len : Nat) (d : DateTime)
    (h : d.date.year < 1980 ∨ d.date.month = 0 ∨ d.date.month > 12 ∨
      d.date.day = 0 ∨ d.date.day > 31) :
    Meta.modifiedResult ⟨b, len, d⟩ =
      Except.error ErrorKind.PermanentFileNotAvailable := by
  simp only [Meta.modifiedResult]
  rw [if_pos h]

/-- Witness for C3 at the concrete date 1979-12-31 23:59:58. -/
theorem modified_invalid_date_rejected_w :
    Meta.modifiedResult ⟨false, 0, ⟨⟨1979, 12, 31⟩, ⟨23, 59, 58⟩⟩⟩ =
      Except.error ErrorKind.PermanentFileNotAvailable :=
  modified_invalid_date_rejected false 0 ⟨⟨1979, 12, 31⟩, ⟨23, 59, 58⟩⟩
    (Or.inl (by decide))

/-- Claim C10: `list` and `cwd` panic (through `to_str().unwrap()`) on every
non-UTF-8 path argument instead of returning a typed error, and never panic on
a UTF-8 path. -/
theorem non_utf8_path_panics (root : List Entry) (bs : List Nat) (s : String) :
    listOs root (OsStr.nonUtf8 bs) = Outcome.panicked
  ∧ cwdOs root (OsStr.nonUtf8 bs) = Outcome.panicked
  ∧ listOs root (OsStr.utf8 s) ≠ Outcome.panicked
  ∧ cwdOs root (OsStr.utf8 s) ≠ Outcome.panicked := by
  refine ⟨rfl, rfl, ?_, ?_⟩ <;> simp [listOs, cwdOs, OsStr.toStr]

/-- Claim C4: path normalization discards `.`, appends normal names, makes
`..` pop the accumulated stack (`dropLast`, so a `..` at an empty stack is a
no-op, with no error and no escape above root), and the two concrete spec
examples: `"/a/../a/b/./c"` normalizes like `"/a/b/c"`, and `"/.."`
normalizes to the empty (root) sequence. -/
theorem normalize_resolves_dots (cs : List PathComponent) (n : String) :
    normalize (cs ++ [PathComponent.curDir]) = normalize cs
  ∧ normalize (cs ++ [PathComponent.normal n]) = normalize cs ++ [n]
  ∧ normalize (cs ++ [PathComponent.parentDir]) = (normalize cs).dropLast
  ∧ normalize (PathComponent.parentDir :: cs) = normalize cs
  ∧ normalizeStr "/a/../a/b/./c" = normalizeStr "/a/b/c"
  ∧ normalizeStr "/.." = [] := by
  refine ⟨?_, ?_, ?_, rfl, rfl, rfl⟩
  · rw [normalize_append_single]; rfl
  · rw [normalize_append_single]; rfl
  · rw [normalize_append_single, normStep_parentDir]

/-- Claim C7: a path whose normalized form is root makes `find` fail with the
`FileNameNotAllowedError` ("not a lookup-able path") rejection for every
volume — in particular the result coincides with the result on the empty
volume, so no directory entry is ever scanned — and consequently `metadata`
and `get` on such a path are rejected with that error rather than returning a
synthesized root record. -/
theorem root_path_resolution_rejected (root : List Entry) (p : String)
    (off : Nat) (h : normalizeStr p = []) :
    find root p = Except.error ErrorKind.FileNameNotAllowedError
  ∧ metadata root p = Except.error ErrorKind.FileNameNotAllowedError
  ∧ get root p off = Except.error ErrorKind.FileNameNotAllowedError
  ∧ find root p = find [] p := by
  have hf : ∀ r : List Entry, find r p = Except.error ErrorKind.FileNameNotAllowedError := by
    intro r
    simp [find, h]
  refine ⟨hf root, ?_, ?_, (hf root).trans (hf []).symm⟩
  · simp [metadata, hf root]
  · simp [get, hf root]

/-- Witness for C7 at the bare root path `"/"` over the fixture volume. -/
theorem root_path_resolution_rejected_w :
    find fixtureVol "/" = Except.error ErrorKind.FileNameNotAllowedError
  ∧ metadata fixtureVol "/" = Except.error ErrorKind.FileNameNotAllowedError
  ∧ get fixtureVol "/" 0 = Except.error ErrorKind.FileNameNotAllowedError
  ∧ find fixtureVol "/" = find [] "/" :=
  root_path_resolution_rejected fixtureVol "/" 0 rfl

/-- Claim C5: during the component walk, a non-final component whose first
case-insensitive match is a directory descends into it; one whose first match
is a file fails `FileNameNotAllowedError` (not not-found); one with no match
fails `PermanentFileNotAvailable` (not-found); and concretely
`metadata "/file.txt/child"`, with `file.txt` a plain file, fails with the
name-not-allowed error. -/
theorem intermediate_component_resolution (dir entries : List Entry)
    (c nm : String) (m : DateTime) (content : List Nat) (rest : List String)
    (hrest : rest ≠ []) :
    (lookupCI dir c = some (nm, FsNode.dir entries m) →
      findComponents dir (c :: rest) = findComponents entries rest)
  ∧ (lookupCI dir c = some (nm, FsNode.file content m) →
      findComponents dir (c :: rest) = Except.error ErrorKind.FileNameNotAllowedError)
  ∧ (lookupCI dir c = none →
      findComponents dir (c :: rest) = Except.error ErrorKind.PermanentFileNotAvailable)
  ∧ metadata fixtureVol "/file.txt/child" =
      Except.error ErrorKind.FileNameNotAllowedError := by
  obtain ⟨c2, rest2, rfl⟩ : ∃ c2 rest2, rest = c2 :: rest2 := by
    cases rest with
    | nil => exact absurd rfl hrest
    | cons a b => exact ⟨a, b, rfl⟩
  refine ⟨?_, ?_, ?_, rfl⟩ <;> intro h <;> simp [findComponents, h]

/-- Witness for C5: the walk through the fixture volume with non-final
component `file.txt` (a plain file) fails name-not-allowed. -/
theorem intermediate_component_resolution_w :
    findComponents fixtureVol ["file.txt", "child"] =
      Except.error ErrorKind.FileNameNotAllowedError :=
  (intermediate_component_resolution fixtureVol [] "file.txt" "file.txt"
    sampleDT [1, 2, 3] ["child"] (by simp)).2.1 rfl

/-- Claim C8: name matching is ASCII-case-insensitive with first-match-wins
semantics in volume enumeration order — a head entry that matches is the
result regardless of later duplicates, file or directory alike; any first
match is the result of the final component; no match fails not-found; and
for the fixture entry `/a/B/c.txt`, `metadata "/a/b/C.TXT"` resolves to the
same record as `metadata "/a/B/c.txt"`. -/
theorem last_component_case_insensitive (dir tail : List Entry) (e : Entry)
    (c : String) :
    (eqIgnoreAsciiCase e.1 c = true → findComponents (e :: tail) [c] = Except.ok e)
  ∧ (∀ x, lookupCI dir c = some x → findComponents dir [c] = Except.ok x)
  ∧ (lookupCI dir c = none →
      findComponents dir [c] = Except.error ErrorKind.PermanentFileNotAvailable)
  ∧ metadata fixtureVol "/a/b/C.TXT" = metadata fixtureVol "/a/B/c.txt"
  ∧ metadata fixtureVol "/a/B/c.txt" = Except.ok ⟨false, 2, sampleDT⟩ := by
  refine ⟨?_, ?_, ?_, rfl, rfl⟩
  · intro h
    have hl : lookupCI (e :: tail) c = some e := by
      simp [lookupCI, List.find?_cons, h]
    simp [findComponents, hl]
  · intro x h; simp [findComponents, h]
  · intro h; simp [findComponents, h]

/-- Witness for C8: `C.TXT` matches the entry named `c.txt` head-first. -/
theorem last_component_case_insensitive_w :
    findComponents bEntries ["C.TXT"] =
      Except.ok ("c.txt", FsNode.file [104, 105] sampleDT)
  ∧ metadata fixtureVol "/a/b/C.TXT" = Except.ok ⟨false, 2, sampleDT⟩ := by
  have h := last_component_case_insensitive [] []
    ("c.txt", FsNode.file [104, 105] sampleDT) "C.TXT"
  exact ⟨h.1 rfl, (h.2.2.2.1).trans h.2.2.2.2⟩

/-- Claim C6 counterexample: `"/.."` normalizes to root, yet `list` does not
succeed on it — the root special case compares the raw path string against
`"/"`, so `"/.."` goes through `find`, which rejects root-normalized paths
with `FileNameNotAllowedError` instead of enumerating the root children. -/
theorem list_normalized_root_cex :
    normalizeStr "/.." = []
  ∧ list fixtureVol "/.." = Except.error ErrorKind.FileNameNotAllowedError :=
  ⟨rfl, rfl⟩

/-- Claim C6 as amended: `list` enumerates the volume root directly only when
the raw path string is exactly `"/"`; any other path — including ones such as
`"/.."` or the empty string whose normalized form is root — is passed to
`find`, so a root-normalized path other than `"/"` fails
`FileNameNotAllowedError`; a path resolving to a file fails
`FileNameNotAllowedError`; and a path resolving to a directory yields one
(name, metadata) record per child entry in volume enumeration order. -/
theorem list_raw_root_special_case (root : List Entry) (p : String) :
    list root "/" = Except.ok (listEntries root)
  ∧ (normalizeStr p = [] → p ≠ "/" →
      list root p = Except.error ErrorKind.FileNameNotAllowedError)
  ∧ (∀ nm content m, p ≠ "/" →
      find root p = Except.ok (nm, FsNode.file content m) →
      list root p = Except.error ErrorKind.FileNameNotAllowedError)
  ∧ (∀ nm entries m, p ≠ "/" →
      find root p = Except.ok (nm, FsNode.dir entries m) →
      list root p = Except.ok (listEntries entries)) := by
  refine ⟨rfl, ?_, ?_, ?_⟩
  · intro hn hp
    simp [list, hp, find, hn]
  · intro nm content m hp hf
    simp [list, hp, hf]
  · intro nm entries m hp hf
    simp [list, hp, hf]

/-- Witness for the amended C6 over the fixture volume: the literal root
path, the empty path (root-normalized but not `"/"`), a file path, and a
directory path. -/
theorem list_raw_root_special_case_w :
    list fixtureVol "/" = Except.ok (listEntries fixtureVol)
  ∧ list fixtureVol "" = Except.error ErrorKind.FileNameNotAllowedError
  ∧ list fixtureVol "/file.txt" = Except.error ErrorKind.FileNameNotAllowedError
  ∧ list fixtureVol "/a" = Except.ok (listEntries aEntries) := by
  refine ⟨(list_raw_root_special_case fixtureVol "").1, ?_, ?_, ?_⟩
  · exact (list_raw_root_special_case fixtureVol "").2.1 rfl (by decide)
  · exact (list_raw_root_special_case fixtureVol "/file.txt").2.2.1
      "file.txt" [1, 2, 3] sampleDT (by decide) rfl
  · exact (list_raw_root_special_case fixtureVol "/a").2.2.2
      "a" aEntries sampleDT (by decide) rfl

/-- Claim C9: once `find` resolves a path to a file, `get` with a start
offset strictly greater than the file's byte length fails (the modelled seek
error maps to `PermanentFileNotAvailable`) rather than clamping to an empty
stream, while an offset within the file yields exactly the remaining content
from that offset to end-of-file. -/
theorem get_seek_past_end_rejected (root : List Entry) (p nm : String)
    (content : List Nat) (m : DateTime) (pos : Nat)
    (hf : find root p = Except.ok (nm, FsNode.file content m)) :
    (content.length < pos →
      get root p pos = Except.error ErrorKind.PermanentFileNotAvailable)
  ∧ (pos ≤ content.length → get root p pos = Except.ok (content.drop pos)) := by
  constructor
  · intro h
    simp [get, hf, seekStart, Nat.not_le.mpr h]
  · intro h
    simp [get, hf, seekStart, h]

/-- Witness for C9 on the 3-byte fixture file `/file.txt`: offset 4 fails,
offset 1 returns the last two bytes. -/
theorem get_seek_past_end_rejected_w :
    get fixtureVol "/file.txt" 4 = Except.error ErrorKind.PermanentFileNotAvailable
  ∧ get fixtureVol "/file.txt" 1 = Except.ok [2, 3] := by
  constructor
  · exact (get_seek_past_end_rejected fixtureVol "/file.txt" "file.txt"
      [1, 2, 3] sampleDT 4 rfl).1 (by decide)
  · exact (get_seek_past_end_rejected fixtureVol "/file.txt" "file.txt"
      [1, 2, 3] sampleDT 1 rfl).2 (by decide)

/-! ### Timestamp refinement (C1) -/

theorem foldl_add_eq_sum_map (f : Nat → Nat) (l : List Nat) (init : Nat) :
    l.foldl (fun acc i => acc + f i) init = init + (l.map f).sum := by
  induction l generalizing init with
  | nil => simp
  | cons x xs ih =>
      simp only [List.foldl_cons, List.map_cons, List.sum_cons, ih]
      omega

theorem month_fold_eq_take_sum (b : Bool) (month : Nat) (h1 : 1 ≤ month)
    (h2 : month ≤ 12) :
    (List.range (month - 1)).foldl
        (fun acc i => acc + DAYS_IN_MONTH.getD i 0 +
          if i + 1 = 2 ∧ b = true then 1 else 0) 0
      = ((specMonthDays b).take (month - 1)).sum := by
  interval_cases month <;> cases b <;> decide

/-- The source's and the spec's Gregorian leap-year rules coincide. -/
theorem gregorianLeap_eq_is_leap_year (y : Nat) :
    gregorianLeap y = is_leap_year y := rfl

/-- The source's day count agrees with the spec's day formula on every
validated date. -/
theorem days_since_1980_eq_specDays (year month day : Nat) (h1 : 1 ≤ month)
    (h2 : month ≤ 12) (h3 : 1 ≤ day) :
    days_since_1980 year month day = some (specDays year month day) := by
  have hcond : ¬(¬(1 ≤ month ∧ month ≤ 12) ∨ day < 1) := by omega
  unfold days_since_1980
  rw [if_neg hcond]
  have hyear : (List.range (year - 1980)).foldl
      (fun acc i => acc + if is_leap_year (1980 + i) then 366 else 365) 0
      = ((List.range (year - 1980)).map
          (fun i => if is_leap_year (1980 + i) then 366 else 365)).sum := by
    rw [foldl_add_eq_sum_map (fun i => if is_leap_year (1980 + i) then 366 else 365)]
    exact Nat.zero_add _
  rw [hyear, month_fold_eq_take_sum (is_leap_year year) month h1 h2]
  simp only [specDays, gregorianLeap_eq_is_leap_year]

/-- Claim C1: for every FAT date/time passing the sanity check (year ≥ 1980,
month in [1,12], day in [1,31]; fields bounded by `u16` as in the source),
`Meta::modified` returns exactly 315532800 seconds after the Unix epoch plus
days·86400 + hour·3600 + minute·60 + second, where the day count follows the
spec's calendar formula (`specDays`): 365/366 per full Gregorian year from
1980 up to the entry's year, cumulative days-in-month before the entry's
month with February as 29 in the entry's leap year, plus day − 1. -/
theorem modified_valid_date_formula (year month day hour minute sec : Nat)
    (b : Bool) (len : Nat)
    (hy1 : 1980 ≤ year) (hy2 : year ≤ 65535)
    (hm1 : 1 ≤ month) (hm2 : month ≤ 12)
    (hd1 : 1 ≤ day) (hd2 : day ≤ 31)
    (_hh : hour ≤ 65535) (_hmin : minute ≤ 65535) (_hs : sec ≤ 65535) :
    Meta.modifiedResult ⟨b, len, ⟨⟨year, month, day⟩, ⟨hour, minute, sec⟩⟩⟩ =
      Except.ok (315532800 + (specDays year month day * 86400 + hour * 3600 +
        minute * 60 + sec)) := by
  have hneg : ¬(year < 1980 ∨ month = 0 ∨ month > 12 ∨ day = 0 ∨ day > 31) := by
    omega
  show (if year < 1980 ∨ month = 0 ∨ month > 12 ∨ day = 0 ∨ day > 31 then
        Except.error ErrorKind.PermanentFileNotAvailable
      else
        match days_since_1980 year month day with
        | none => Except.error ErrorKind.PermanentFileNotAvailable
        | some days =>
            Except.ok (315532800 + (days * 86400 + hour * 3600 +
              minute * 60 + sec))) = _
  rw [if_neg hneg, days_since_1980_eq_specDays year month day hm1 hm2 hd1]

/-- Witness for C1 at the FAT epoch boundary: an entry dated exactly
1980-01-01T00:00:00 converts to 315532800 seconds after the Unix epoch. -/
theorem modified_valid_date_formula_w :
    Meta.modifiedResult ⟨false, 0, ⟨⟨1980, 1, 1⟩, ⟨0, 0, 0⟩⟩⟩ =
      Except.ok 315532800 := by
  have h := modified_valid_date_formula 1980 1 1 0 0 0 false 0
    (by decide) (by decide) (by decide) (by decide) (by decide) (by decide)
    (by decide) (by decide) (by decide)
  exact h

end FatVfs

